import Mathlib

/-!
# Verification of `render.py`: camera pose sampling and render-job orchestration

This file embeds the core of `render.py` (a multi-view synthetic dataset
generator driven by a 3D engine) into Lean and proves the specified
properties of:

* the render-job enumeration loop (`main`, lines 190-206): sorted texture
  order, per-view output directories `render/<stem>/<%06d>`;
* the pose sampler (lines 208-216): spherical placement, look-at
  orientation, post-orientation jitter;
* the camera parameter export (lines 219-246): camera-to-world matrix,
  its inverse as the serialized view matrix, the projection-matrix sign
  flip, the serialized record keys;
* directory creation (lines 125, 128, 206): `os.makedirs(..., exist_ok=True)`.

Strings model Python `str`; file paths are joined with `"/"` as in
`os.path.join` on posix.
-/

namespace RenderPy

/-! ## String-level helpers: `os.path.splitext` and `format(i, "06d")` -/

/-- Index of the last occurrence of `c` in `s` (`str.rfind`, `none` for -1). -/
def rfindIdx (c : Char) : List Char → Option Nat
  | [] => none
  | x :: xs =>
    match rfindIdx c xs with
    | some i => some (i + 1)
    | none => if x = c then some 0 else none

/-- The stem part of `os.path.splitext` (posix): split at the last `'.'`
provided it lies after the last `'/'` and the characters between the start of
the base name and that dot are not all dots. -/
def splitextStem (s : List Char) : List Char :=
  match rfindIdx '.' s with
  | none => s
  | some d =>
    let fi : Nat := match rfindIdx '/' s with | none => 0 | some k => k + 1
    let sepOk : Bool := match rfindIdx '/' s with | none => true | some k => decide (k < d)
    if sepOk && !(((s.take d).drop fi).all fun c => c == '.') then s.take d else s

/-- `os.path.splitext(s)[0]` on a Python string. -/
def stemOf (s : String) : String := ⟨splitextStem s.data⟩

/-- Decimal digit character: `digitOfNat n` is `'0' + n` for `n < 10`. -/
def digitOfNat (n : Nat) : Char := Char.ofNat (48 + n)

/-- Fuel-driven decimal printer (most significant digit first), accumulator
style; `fuel > n` suffices for full conversion. -/
def toDecimalAux : Nat → Nat → List Char → List Char
  | 0, _, acc => acc
  | fuel + 1, n, acc =>
    if n < 10 then digitOfNat n :: acc
    else toDecimalAux fuel (n / 10) (digitOfNat (n % 10) :: acc)

/-- The decimal digits of `n`, most significant first. -/
def toDecimal (n : Nat) : List Char := toDecimalAux (n + 1) n []

/-- Python `"%06d" % n` for a natural number: left-pad the decimal digits
with `'0'` to width 6 (line 205: the view-index directory name). -/
def zeroPad6 (n : Nat) : String :=
  ⟨List.replicate (6 - (toDecimal n).length) '0' ++ toDecimal n⟩

/-! ## Render-job enumeration (`main`, lines 190-206) -/

/-- Strict lexicographic comparison of character lists by code point —
the order Python `sorted` uses on `str`. -/
def lexLt : List Char → List Char → Bool
  | [], [] => false
  | [], _ :: _ => true
  | _ :: _, [] => false
  | a :: as, b :: bs => a < b || (a = b && lexLt as bs)

/-- Boolean `≤` on `String` by code points (`a ≤ b ↔ ¬ b < a`). -/
def strLeB (a b : String) : Bool := !(lexLt b.data a.data)

/-- Line 190: `sorted(os.listdir(args.texture_dir))`.  Python `sorted` on
strings is the lexicographic order on code points; `insertionSort` by that
order is extensionally the same (stable) sort. -/
def sortedTextures (names : List String) : List String :=
  List.insertionSort (fun a b => strLeB a b = true) names

/-- Line 205: `os.path.join(render_dir, os.path.splitext(texture_name)[0],
"%06d" % camera_i)`. -/
def cameraViewDir (renderDir texture : String) (i : Nat) : String :=
  renderDir ++ "/" ++ stemOf texture ++ "/" ++ zeroPad6 i

/-- The (texture, view index) job grid in execution order: textures sorted
by file name (outer loop, line 191), view indices `0..n-1` (inner loop,
line 204). -/
def renderJobs (names : List String) (n : Nat) : List (String × Nat) :=
  (sortedTextures names).flatMap fun t => (List.range n).map fun i => (t, i)

/-- The output directories of a run, in execution order. -/
def jobDirs (renderDir : String) (names : List String) (n : Nat) : List String :=
  (renderJobs names n).map fun p => cameraViewDir renderDir p.1 p.2

/-! ## CLI arguments and fixed render settings (lines 16-34, 135-137) -/

/-- The parsed command line (`parse_args`, lines 23-32). -/
structure Args where
  output_dir : String
  texture_dir : String
  input_obj : String
  n_views : Nat
  device : String
  export_uv_layout : Bool

/-- Mutable render settings relevant to the exported record. -/
structure RenderSettings where
  resolution_x : Nat
  resolution_y : Nat

/-- Lines 136-137: `scene.render.resolution_x = 512`,
`scene.render.resolution_y = 512` — unconditionally, whatever the
arguments were. -/
def sceneSetup : Args → RenderSettings :=
  fun _ => { resolution_x := 512, resolution_y := 512 }

/-- Lines 232-235: the `(x, y)` arguments passed to
`camera.calc_matrix_camera` are the scene's render resolution. -/
def projectionCallResolution (args : Args) : Nat × Nat :=
  ((sceneSetup args).resolution_x, (sceneSetup args).resolution_y)

/-! ## The serialized camera record (lines 238-246) -/

/-- A value stored in the pickled `camera_dict`. -/
inductive RecVal
  | mat4 (m : Matrix (Fin 4) (Fin 4) ℝ)
  | int (n : Nat)

/-- Lines 239-244: the `camera_dict` literal, as the ordered association
list that gets pickled. -/
def cameraDict (settings : RenderSettings) (tm pm : Matrix (Fin 4) (Fin 4) ℝ) :
    List (String × RecVal) :=
  [("transformation_matrix", RecVal.mat4 tm),
   ("projection_matrix", RecVal.mat4 pm),
   ("resolution_x", RecVal.int settings.resolution_x),
   ("resolution_y", RecVal.int settings.resolution_y)]

/-! ## Per-job side-effect trace (lines 190-249) -/

/-- Observable filesystem/renderer effects of the main loop, in program
order. -/
inductive Ev
  | makedirs (path : String)
  | setMaterial (texture : String)
  | writeRecord (path : String)
  | renderCall (outputDir : String)
  deriving DecidableEq

/-- Lines 205-249, one view: create the output directory (206), pickle the
camera record to `camera.pkl` (238-246), then invoke the blocking render
with the output node targeting that directory (248-249). -/
def viewEvents (renderDir texture : String) (i : Nat) : List Ev :=
  [Ev.makedirs (cameraViewDir renderDir texture i),
   Ev.writeRecord (cameraViewDir renderDir texture i ++ "/camera.pkl"),
   Ev.renderCall (cameraViewDir renderDir texture i)]

/-- Lines 191-249, one texture: rebind the material (194-202), then the
inner view loop (204-249). -/
def textureEvents (renderDir texture : String) (n : Nat) : List Ev :=
  Ev.setMaterial texture :: (List.range n).flatMap (viewEvents renderDir texture)

/-- The whole run's effect trace (outer texture loop, lines 190-249). -/
def runEvents (renderDir : String) (names : List String) (n : Nat) : List Ev :=
  (sortedTextures names).flatMap fun t => textureEvents renderDir t n

/-! ## Directory creation (lines 125, 128, 206) -/

/-- Modelled from the spec: Python `os.makedirs(path, exist_ok=...)`
(the standard library call used by `main`; not part of this repository).
It raises `FileExistsError` when the target directory exists and
`exist_ok` is false, succeeds without change when it exists and
`exist_ok` is true, and creates it otherwise.  The filesystem is the list
of existing directories. -/
def makedirsModel (existOk : Bool) (fs : List String) (p : String) :
    Except String (List String) :=
  if p ∈ fs then
    (if existOk then Except.ok fs else Except.error "FileExistsError")
  else Except.ok (p :: fs)

/-- The directories `main` creates, in order: `args.output_dir` (line 125),
`render_dir = output_dir/render` (lines 127-128), then every per-job
directory (line 206). -/
def runMakedirsCalls (outputDir : String) (names : List String) (n : Nat) :
    List String :=
  outputDir :: (outputDir ++ "/render") :: jobDirs (outputDir ++ "/render") names n

/-- All of `main`'s directory creation, threaded over a pre-existing
filesystem; every call passes `exist_ok=True` as in the source. -/
def runCreateDirs (fs : List String) (outputDir : String) (names : List String)
    (n : Nat) : Except String (List String) :=
  (runMakedirsCalls outputDir names n).foldlM (makedirsModel true) fs

/-! ## Decimal value recovery (proof helper for directory distinctness) -/

/-- The code-point value of a decimal digit character. -/
def charVal (c : Char) : Nat := c.toNat - 48

/-- The number denoted by a decimal digit string (most significant first);
left inverse of `toDecimal` and insensitive to leading zeros. -/
def decValue (l : List Char) : Nat := l.foldl (fun a c => a * 10 + charVal c) 0

/-! ## Pose sampling (lines 208-216) and camera export (lines 219-236)

Floating-point quantities are modelled by real numbers. -/

noncomputable section

/-- Line 208: `r = np.random.uniform(3.0, 10.0)` — the radial bounds. -/
def r_min : ℝ := 3

/-- Line 208: upper radial bound. -/
def r_max : ℝ := 10

/-- Line 216: `np.random.uniform(-1.0, 1.0, size=3)` — each jitter
component is drawn from `[-jitter_extent, jitter_extent]`. -/
def jitter_extent : ℝ := 1

/-- The look-at target passed to `point_obj_at` (line 213):
`obj.location`.  Modelled from the spec: the target object is imported by
`bpy.ops.import_scene.obj` (line 160, external engine code), which places
the imported object at the world origin (OBJ files carry no object
transform and the script never moves the object), so the object's
reference point is `(0, 0, 0)`. -/
def objLocation : EuclideanSpace ℝ (Fin 3) := 0

/-- The spherical-to-Cartesian offset `(r·cos(theta)·sin(phi),
r·sin(theta)·sin(phi), r·cos(phi))` of line 212. -/
def sphericalOffset (r θ φ : ℝ) : EuclideanSpace ℝ (Fin 3) :=
  ![r * Real.cos θ * Real.sin φ, r * Real.sin θ * Real.sin φ, r * Real.cos φ]

/-- Line 212: `camera.location = (r·cos(theta)·sin(phi),
r·sin(theta)·sin(phi), r·cos(phi))` — the camera is placed at the
spherical offset taken from the world origin (the coordinates are
assigned absolutely). -/
def preJitterLocation (r θ φ : ℝ) : EuclideanSpace ℝ (Fin 3) :=
  sphericalOffset r θ φ

/-- World up axis used by the look-at construction. -/
def worldUp : Fin 3 → ℝ := ![0, 0, 1]

/-- Secondary fixed axis, the tie-break when the forward direction is
colinear with `worldUp`. -/
def fallbackUp : Fin 3 → ℝ := ![0, 1, 0]

/-- Cross product of 3-vectors. -/
def cross3 (a b : Fin 3 → ℝ) : Fin 3 → ℝ :=
  ![a 1 * b 2 - a 2 * b 1, a 2 * b 0 - a 0 * b 2, a 0 * b 1 - a 1 * b 0]

/-- Euclidean length of a 3-vector. -/
def norm3 (v : Fin 3 → ℝ) : ℝ := Real.sqrt (v 0 ^ 2 + v 1 ^ 2 + v 2 ^ 2)

/-- `v / |v|` (componentwise; the zero vector maps to zero). -/
def normalize3 (v : Fin 3 → ℝ) : Fin 3 → ℝ := fun i => v i / norm3 v

open scoped Classical in
/-- Modelled from the spec: `direction.to_track_quat('-Z', 'Y')` followed
by `.to_euler()` / `.to_matrix()` (lines 81-82 and 219, implemented in the
external `mathutils` library).  The look-at construction: the camera's
local `-Z` axis is mapped onto `normalize(direction)`, and the remaining
two axes are resolved against the fixed world up axis (with the fixed
fallback axis when the direction is colinear with up).  The result is the
3×3 rotation whose columns are the camera's local axes expressed in world
coordinates; the camera looks along its local `-Z`. -/
def lookAtMatrix (d : Fin 3 → ℝ) : Matrix (Fin 3) (Fin 3) ℝ :=
  let f := normalize3 d
  let upRef := if f 0 = 0 ∧ f 1 = 0 then fallbackUp else worldUp
  let s := normalize3 (cross3 f upRef)
  let u := cross3 s f
  Matrix.of ![![s 0, u 0, -f 0], ![s 1, u 1, -f 1], ![s 2, u 2, -f 2]]

/-- A camera pose: location plus orientation (3×3 rotation). -/
structure Pose where
  location : EuclideanSpace ℝ (Fin 3)
  orientation : Matrix (Fin 3) (Fin 3) ℝ

/-- Lines 212-216, in source order: place the camera on the sphere
(212), aim it at `obj.location` — `point_obj_at` computes
`direction = target - loc` from the current, pre-jitter location
(lines 77-82, 213) — and only then add the jitter to the location (216).
The orientation is a function of the pre-jitter direction alone. -/
def samplePose (r θ φ : ℝ) (jitter : EuclideanSpace ℝ (Fin 3)) : Pose :=
  let loc := preJitterLocation r θ φ
  let rot := lookAtMatrix (fun i => objLocation i - loc i)
  { location := loc + jitter, orientation := rot }

/-- The camera's forward axis in world coordinates: the orientation applied
to the camera-local forward vector `(0, 0, -1)` (a Blender camera looks
along its local `-Z` axis). -/
def forwardAxis (R : Matrix (Fin 3) (Fin 3) ℝ) : Fin 3 → ℝ :=
  R.mulVec ![0, 0, -1]

/-- Lines 219-227: the 4×4 camera-to-world matrix assembled from the pose's
rotation (3×3 block), its post-jitter location (translation column) and
bottom row `[0, 0, 0, 1]`. -/
def cameraToWorld (R : Matrix (Fin 3) (Fin 3) ℝ) (t : Fin 3 → ℝ) :
    Matrix (Fin 4) (Fin 4) ℝ :=
  !![R 0 0, R 0 1, R 0 2, t 0;
     R 1 0, R 1 1, R 1 2, t 1;
     R 2 0, R 2 1, R 2 2, t 2;
     0, 0, 0, 1]

/-- Line 229: `transformation_matrix = np.linalg.inv(transformation_matrix)`
— the serialized view matrix is the matrix inverse of the camera-to-world
matrix (`np.linalg.inv` computes the exact inverse of an invertible
matrix; `Matrix.inv` agrees with it on invertible input). -/
def transformation_matrix (R : Matrix (Fin 3) (Fin 3) ℝ) (t : Fin 3 → ℝ) :
    Matrix (Fin 4) (Fin 4) ℝ :=
  (cameraToWorld R t)⁻¹

/-- Line 236: `projection_matrix[1, 1] *= -1` applied to the renderer-native
projection matrix. -/
def exportProjection (P : Matrix (Fin 4) (Fin 4) ℝ) : Matrix (Fin 4) (Fin 4) ℝ :=
  Matrix.of fun i j => if i = 1 ∧ j = 1 then P i j * (-1) else P i j

end

/-! ## Helper lemmas: the sort order is the lexicographic string order -/

theorem lexLt_iff_lex (a b : List Char) : lexLt a b = true ↔ List.Lex (· < ·) a b := by
  induction a generalizing b with
  | nil =>
    cases b with
    | nil => simp [lexLt]
    | cons x xs => simp [lexLt]; exact List.Lex.nil
  | cons x xs ih =>
    cases b with
    | nil => simp [lexLt]
    | cons y ys =>
      simp only [lexLt, Bool.or_eq_true, Bool.and_eq_true, decide_eq_true_eq, ih]
      constructor
      · rintro (h | ⟨rfl, h⟩)
        · exact List.Lex.rel h
        · exact List.Lex.cons h
      · intro h
        cases h with
        | rel h => exact Or.inl h
        | cons h => exact Or.inr ⟨rfl, h⟩

theorem strLeB_iff (a b : String) : strLeB a b = true ↔ a ≤ b := by
  rw [strLeB, Bool.not_eq_true']
  rw [show (a ≤ b) = ¬ b < a from rfl]
  rw [String.lt_iff_toList_lt]
  rw [show (String.toList b < String.toList a) = List.Lex (· < ·) b.data a.data from rfl]
  rw [← lexLt_iff_lex]
  simp

theorem strLeB_total : ∀ a b : String, strLeB a b = true ∨ strLeB b a = true := by
  intro a b
  rcases le_total a b with h | h
  · exact Or.inl ((strLeB_iff a b).2 h)
  · exact Or.inr ((strLeB_iff b a).2 h)

theorem strLeB_trans : ∀ a b c : String, strLeB a b = true → strLeB b c = true →
    strLeB a c = true := by
  intro a b c hab hbc
  exact (strLeB_iff a c).2 (le_trans ((strLeB_iff a b).1 hab) ((strLeB_iff b c).1 hbc))

theorem sortedTextures_sorted (names : List String) :
    (sortedTextures names).Sorted (fun a b : String => a ≤ b) := by
  have hs : (sortedTextures names).Sorted (fun a b => strLeB a b = true) := by
    haveI : IsTotal String (fun a b => strLeB a b = true) := ⟨strLeB_total⟩
    haveI : IsTrans String (fun a b => strLeB a b = true) := ⟨strLeB_trans⟩
    exact List.sorted_insertionSort _ names
  exact List.Pairwise.imp (fun h => (strLeB_iff _ _).1 h) hs

theorem sortedTextures_perm (names : List String) :
    (sortedTextures names).Perm names :=
  List.perm_insertionSort _ names

/-! ## Helper lemmas: decimal printing and view-directory injectivity -/

theorem charVal_digitOfNat {n : Nat} (h : n < 10) : charVal (digitOfNat n) = n := by
  interval_cases n <;> decide

theorem digitOfNat_ne_slash {n : Nat} (h : n < 10) : digitOfNat n ≠ '/' := by
  interval_cases n <;> decide

theorem foldl_toDecimalAux (fuel : Nat) :
    ∀ (n : Nat) (acc : List Char) (a : Nat), n < fuel →
      ∃ k, List.foldl (fun a c => a * 10 + charVal c) a (toDecimalAux fuel n acc) =
        List.foldl (fun a c => a * 10 + charVal c) (a * 10 ^ k + n) acc := by
  induction fuel with
  | zero => intro n acc a h; omega
  | succ fuel ih =>
    intro n acc a h
    by_cases hn : n < 10
    · refine ⟨1, ?_⟩
      simp only [toDecimalAux, if_pos hn, List.foldl_cons, charVal_digitOfNat hn]
      ring_nf
    · have hdiv : n / 10 < fuel := by
        have : n / 10 < n := Nat.div_lt_self (by omega) (by omega)
        omega
      obtain ⟨k, hk⟩ := ih (n / 10) (digitOfNat (n % 10) :: acc) a hdiv
      refine ⟨k + 1, ?_⟩
      simp only [toDecimalAux, if_neg hn, hk, List.foldl_cons,
        charVal_digitOfNat (Nat.mod_lt n (by omega))]
      have : (a * 10 ^ k + n / 10) * 10 + n % 10 = a * 10 ^ (k + 1) + n := by
        have := Nat.div_add_mod n 10
        ring_nf
        omega
      rw [this]

theorem decValue_toDecimal (n : Nat) : decValue (toDecimal n) = n := by
  obtain ⟨k, hk⟩ := foldl_toDecimalAux (n + 1) n [] 0 (Nat.lt_succ_self n)
  simpa [decValue, toDecimal] using hk

theorem decValue_replicate_zero (l : List Char) (m : Nat) :
    decValue (List.replicate m '0' ++ l) = decValue l := by
  have hz : ∀ m : Nat, List.foldl (fun a c => a * 10 + charVal c) 0
      (List.replicate m '0') = 0 := by
    intro m
    induction m with
    | zero => rfl
    | succ m ih => simpa [List.replicate_succ, charVal] using ih
  simp [decValue, List.foldl_append, hz]

theorem decValue_zeroPad6 (n : Nat) : decValue (zeroPad6 n).data = n := by
  show decValue (List.replicate (6 - (toDecimal n).length) '0' ++ toDecimal n) = n
  rw [decValue_replicate_zero, decValue_toDecimal]

theorem zeroPad6_data_inj {i j : Nat} (h : (zeroPad6 i).data = (zeroPad6 j).data) :
    i = j := by
  have := congrArg decValue h
  rwa [decValue_zeroPad6, decValue_zeroPad6] at this

theorem mem_toDecimalAux (fuel : Nat) :
    ∀ (n : Nat) (acc : List Char) (c : Char), c ∈ toDecimalAux fuel n acc →
      c ∈ acc ∨ ∃ m, m < 10 ∧ c = digitOfNat m := by
  induction fuel with
  | zero => intro n acc c h; exact Or.inl h
  | succ fuel ih =>
    intro n acc c h
    by_cases hn : n < 10
    · simp only [toDecimalAux, if_pos hn, List.mem_cons] at h
      rcases h with rfl | h
      · exact Or.inr ⟨n, hn, rfl⟩
      · exact Or.inl h
    · simp only [toDecimalAux, if_neg hn] at h
      rcases ih (n / 10) _ c h with h | h
      · rcases List.mem_cons.1 h with rfl | h
        · exact Or.inr ⟨n % 10, Nat.mod_lt n (by omega), rfl⟩
        · exact Or.inl h
      · exact Or.inr h

theorem slash_not_mem_zeroPad6 (n : Nat) : '/' ∉ (zeroPad6 n).data := by
  intro h
  rcases List.mem_append.1 h with h | h
  · have := List.eq_of_mem_replicate h
    exact absurd this (by decide)
  · rcases mem_toDecimalAux (n + 1) n [] '/' h with h | ⟨m, hm, he⟩
    · exact absurd h (List.not_mem_nil _)
    · exact digitOfNat_ne_slash hm he.symm

theorem append_last_sep_inj {c : Char} :
    ∀ (a₁ : List Char) {a₂ b₁ b₂ : List Char}, c ∉ b₁ → c ∉ b₂ →
      a₁ ++ c :: b₁ = a₂ ++ c :: b₂ → a₁ = a₂ ∧ b₁ = b₂ := by
  intro a₁
  induction a₁ with
  | nil =>
    intro a₂ b₁ b₂ h₁ h₂ h
    cases a₂ with
    | nil => simpa using h
    | cons x t =>
      exfalso
      simp only [List.nil_append, List.cons_append, List.cons.injEq] at h
      obtain ⟨rfl, h⟩ := h
      exact h₁ (h ▸ List.mem_append_right t (List.mem_cons_self _ _))
  | cons x t ih =>
    intro a₂ b₁ b₂ h₁ h₂ h
    cases a₂ with
    | nil =>
      exfalso
      simp only [List.nil_append, List.cons_append, List.cons.injEq] at h
      obtain ⟨rfl, h⟩ := h
      exact h₂ (h ▸ List.mem_append_right t (List.mem_cons_self _ _))
    | cons y s =>
      simp only [List.cons_append, List.cons.injEq] at h
      obtain ⟨rfl, h⟩ := h
      obtain ⟨he, hb⟩ := ih h₁ h₂ h
      exact ⟨by rw [he], hb⟩

theorem cameraViewDir_inj {renderDir t₁ t₂ : String} {i₁ i₂ : Nat}
    (h : cameraViewDir renderDir t₁ i₁ = cameraViewDir renderDir t₂ i₂) :
    stemOf t₁ = stemOf t₂ ∧ i₁ = i₂ := by
  have hd := congrArg String.data h
  simp only [cameraViewDir, String.data_append] at hd
  have h2 : (renderDir.data ++ '/' :: (stemOf t₁).data) ++ '/' :: (zeroPad6 i₁).data =
      (renderDir.data ++ '/' :: (stemOf t₂).data) ++ '/' :: (zeroPad6 i₂).data := by
    simpa [List.append_assoc] using hd
  obtain ⟨h3, h4⟩ :=
    append_last_sep_inj _ (slash_not_mem_zeroPad6 i₁) (slash_not_mem_zeroPad6 i₂) h2
  refine ⟨?_, zeroPad6_data_inj h4⟩
  have h5 := List.append_cancel_left h3
  exact String.ext (List.cons.inj h5).2

/-! ## Helper lemmas: job grid shape -/

theorem renderJobs_length (names : List String) (n : Nat) :
    (renderJobs names n).length = names.length * n := by
  rw [renderJobs, List.length_flatMap]
  simp only [Function.comp_def, List.length_map, List.length_range, List.map_const',
    List.sum_replicate, smul_eq_mul, (sortedTextures_perm names).length_eq]

theorem jobDirs_flatMap (renderDir : String) (names : List String) (n : Nat) :
    jobDirs renderDir names n = (sortedTextures names).flatMap
      fun t => (List.range n).map fun i => cameraViewDir renderDir t i := by
  simp only [jobDirs, renderJobs, List.map_flatMap, List.map_map]
  rfl

theorem jobDirs_nodup {names : List String} (renderDir : String) (n : Nat)
    (hstem : (names.map stemOf).Nodup) : (jobDirs renderDir names n).Nodup := by
  have hperm : ((sortedTextures names).map stemOf).Perm (names.map stemOf) :=
    (sortedTextures_perm names).map stemOf
  have hstems : ((sortedTextures names).map stemOf).Nodup := hperm.nodup_iff.2 hstem
  rw [jobDirs_flatMap, List.nodup_flatMap]
  constructor
  · intro t _
    exact (List.nodup_range n).map_on
      fun i _ j _ hij => (cameraViewDir_inj hij).2
  · have hp : (sortedTextures names).Pairwise
        (fun a b => stemOf a ≠ stemOf b) := (List.pairwise_map).1 hstems
    refine hp.imp ?_
    intro a b hab x hxa hxb
    simp only [List.mem_map, List.mem_range] at hxa hxb
    obtain ⟨i, _, rfl⟩ := hxa
    obtain ⟨j, _, hEq⟩ := hxb
    exact hab (cameraViewDir_inj hEq.symm).1

/-! ## Helper lemmas: event traces and directory creation -/

theorem flatMap_infix_of_mem {α β : Type} {f : α → List β} {l : List α} {a : α}
    (h : a ∈ l) : f a <:+: l.flatMap f := by
  induction l with
  | nil => cases h
  | cons x t ih =>
    rcases List.mem_cons.1 h with rfl | h
    · rw [List.flatMap_cons]
      exact (List.prefix_append (f a) (t.flatMap f)).isInfix
    · obtain ⟨s, r, hs⟩ := ih h
      exact ⟨f x ++ s, r, by rw [List.flatMap_cons, ← hs]; simp [List.append_assoc]⟩

theorem foldlM_makedirs_ok (l : List String) :
    ∀ fs : List String, ∃ g, List.foldlM (makedirsModel true) fs l = Except.ok g := by
  induction l with
  | nil => intro fs; exact ⟨fs, rfl⟩
  | cons p t ih =>
    intro fs
    by_cases hp : p ∈ fs
    · obtain ⟨g, hg⟩ := ih fs
      refine ⟨g, ?_⟩
      rw [List.foldlM_cons, show makedirsModel true fs p = Except.ok fs by
        simp [makedirsModel, hp]]
      exact hg
    · obtain ⟨g, hg⟩ := ih (p :: fs)
      refine ⟨g, ?_⟩
      rw [List.foldlM_cons, show makedirsModel true fs p = Except.ok (p :: fs) by
        simp [makedirsModel, hp]]
      exact hg

/-! ## Claims C5-C10: orchestration -/

/-- **C5**: the orchestrator iterates textures in lexicographic file-name
order (outer loop) and view indices `0..n-1` in increasing order (inner
loop); each job's output directory is `render_root/<texture stem>/<view
index zero-padded to 6 digits>`; for texture files `metal.png`, `wood.png`
and `n_views = 3` the produced directories are `render/metal/000000` …
`render/wood/000002` in exactly that lexicographic-then-index order. -/
theorem C5_enumeration_order :
    (∀ names : List String, (sortedTextures names).Sorted (fun a b : String => a ≤ b)) ∧
    (∀ (names : List String) (n : Nat) (renderDir : String),
      jobDirs renderDir names n = (sortedTextures names).flatMap
        fun t => (List.range n).map fun i =>
          renderDir ++ "/" ++ stemOf t ++ "/" ++ zeroPad6 i) ∧
    jobDirs "render" ["metal.png", "wood.png"] 3 =
      ["render/metal/000000", "render/metal/000001", "render/metal/000002",
       "render/wood/000000", "render/wood/000001", "render/wood/000002"] :=
  ⟨sortedTextures_sorted, fun names n renderDir => jobDirs_flatMap renderDir names n,
    by decide⟩

/-- **C6, counterexample**: with texture files `a.jpg` and `a.png` (distinct
directory entries with equal stems) and one view, the run produces 2 jobs
but their output directories coincide, refuting "no two jobs in the run
share an output_dir". -/
theorem C6_counterexample :
    (renderJobs ["a.jpg", "a.png"] 1).length = 2 * 1 ∧
    ¬ (jobDirs "render" ["a.jpg", "a.png"] 1).Nodup := by decide

/-- **C6, amended**: for `k` textures and `n` views exactly `k × n` render
jobs are produced; and provided the texture file stems are pairwise
distinct (which distinct file names alone do not guarantee), no two jobs
share an output directory. -/
theorem C6_job_count_and_distinct_dirs (names : List String) (n : Nat)
    (renderDir : String) (hstem : (names.map stemOf).Nodup) :
    (renderJobs names n).length = names.length * n ∧
    (jobDirs renderDir names n).Nodup :=
  ⟨renderJobs_length names n, jobDirs_nodup renderDir n hstem⟩

/-- Witness for `C6_job_count_and_distinct_dirs` at a concrete input. -/
theorem C6_witness :
    (["metal.png", "wood.png"].map stemOf).Nodup ∧
    ((renderJobs ["metal.png", "wood.png"] 2).length =
        ["metal.png", "wood.png"].length * 2 ∧
      (jobDirs "render" ["metal.png", "wood.png"] 2).Nodup) :=
  ⟨by decide, C6_job_count_and_distinct_dirs ["metal.png", "wood.png"] 2 "render" (by decide)⟩

/-- **C7**: the persisted camera record contains exactly the keys
`transformation_matrix`, `projection_matrix`, `resolution_x`,
`resolution_y` (in the source's order), and for every job of a run the
record write immediately precedes — in particular, happens before — the
render call that produces that job's images. -/
theorem C7_record_keys_and_write_before_render :
    (∀ (s : RenderSettings) (tm pm : Matrix (Fin 4) (Fin 4) ℝ),
      (cameraDict s tm pm).map Prod.fst =
        ["transformation_matrix", "projection_matrix", "resolution_x", "resolution_y"]) ∧
    (∀ (renderDir : String) (names : List String) (n : Nat) (t : String) (i : Nat),
      t ∈ sortedTextures names → i < n →
      [Ev.writeRecord (cameraViewDir renderDir t i ++ "/camera.pkl"),
       Ev.renderCall (cameraViewDir renderDir t i)] <:+: runEvents renderDir names n) := by
  constructor
  · intro s tm pm; rfl
  · intro renderDir names n t i ht hi
    have h1 : [Ev.writeRecord (cameraViewDir renderDir t i ++ "/camera.pkl"),
        Ev.renderCall (cameraViewDir renderDir t i)] <:+: viewEvents renderDir t i :=
      ⟨[Ev.makedirs (cameraViewDir renderDir t i)], [], by simp [viewEvents]⟩
    have h2 : viewEvents renderDir t i <:+: (List.range n).flatMap (viewEvents renderDir t) :=
      flatMap_infix_of_mem (List.mem_range.2 hi)
    have h3 : (List.range n).flatMap (viewEvents renderDir t) <:+:
        textureEvents renderDir t n :=
      ⟨[Ev.setMaterial t], [], by simp [textureEvents]⟩
    have h4 : textureEvents renderDir t n <:+: runEvents renderDir names n :=
      @flatMap_infix_of_mem String Ev (fun t => textureEvents renderDir t n)
        (sortedTextures names) t ht
    exact ((h1.trans h2).trans h3).trans h4

/-- Witness for `C7_record_keys_and_write_before_render` at a concrete
input. -/
theorem C7_witness :
    [Ev.writeRecord (cameraViewDir "render" "metal.png" 0 ++ "/camera.pkl"),
     Ev.renderCall (cameraViewDir "render" "metal.png" 0)] <:+:
      runEvents "render" ["metal.png"] 1 :=
  C7_record_keys_and_write_before_render.2 "render" ["metal.png"] 1 "metal.png" 0
    (by decide) (by decide)

/-- **C8**: directory creation is idempotent — every `os.makedirs` call of
the run passes `exist_ok=True`, so whatever directories already exist
(`fs`), re-running the whole creation sequence succeeds and never raises
`FileExistsError`. -/
theorem C8_directory_creation_idempotent :
    ∀ (fs : List String) (outputDir : String) (names : List String) (n : Nat),
      ∃ finalFs, runCreateDirs fs outputDir names n = Except.ok finalFs :=
  fun fs outputDir names n => foldlM_makedirs_ok (runMakedirsCalls outputDir names n) fs

/-- **C9**: every run renders at the fixed resolution 512×512 regardless of
the parsed arguments: the scene setup ignores `args`, the projection matrix
is requested for exactly that resolution, and the persisted record stores
`resolution_x = resolution_y = 512`. -/
theorem C9_fixed_resolution :
    ∀ (args : Args) (tm pm : Matrix (Fin 4) (Fin 4) ℝ),
      (sceneSetup args).resolution_x = 512 ∧
      (sceneSetup args).resolution_y = 512 ∧
      projectionCallResolution args = (512, 512) ∧
      cameraDict (sceneSetup args) tm pm =
        [("transformation_matrix", RecVal.mat4 tm),
         ("projection_matrix", RecVal.mat4 pm),
         ("resolution_x", RecVal.int 512),
         ("resolution_y", RecVal.int 512)] :=
  fun _ _ _ => ⟨rfl, rfl, rfl, rfl⟩

/-- **C10**: the texture sequence is every directory entry of
`texture_dir` in sorted order with no filtering whatsoever — the enumerated
textures are a permutation of the full listing (so non-image files and
subdirectories are included), and the job total counts every entry. -/
theorem C10_unfiltered_entries :
    ∀ (entries : List String) (n : Nat),
      (sortedTextures entries).Perm entries ∧
      (renderJobs entries n).length = entries.length * n :=
  fun entries n => ⟨sortedTextures_perm entries, renderJobs_length entries n⟩

/-! ## Helper lemmas: geometry of the sampled pose -/

theorem norm_preJitterLocation (r θ φ : ℝ) (hr : 0 ≤ r) :
    ‖preJitterLocation r θ φ‖ = r := by
  rw [EuclideanSpace.norm_eq, Fin.sum_univ_three]
  have key : ‖preJitterLocation r θ φ 0‖ ^ 2 + ‖preJitterLocation r θ φ 1‖ ^ 2 +
      ‖preJitterLocation r θ φ 2‖ ^ 2 = r ^ 2 := by
    simp only [preJitterLocation, sphericalOffset, Matrix.cons_val_zero, Matrix.cons_val_one, Matrix.head_cons,
      Matrix.cons_val_two, Matrix.tail_cons, Real.norm_eq_abs, sq_abs]
    have h1 := Real.sin_sq_add_cos_sq θ
    have h2 := Real.sin_sq_add_cos_sq φ
    linear_combination (r ^ 2 * Real.sin φ ^ 2) * h1 + r ^ 2 * h2
  rw [key, Real.sqrt_sq hr]

theorem norm_jitter_le (j : EuclideanSpace ℝ (Fin 3)) (h : ∀ i, |j i| ≤ jitter_extent) :
    ‖j‖ ≤ Real.sqrt 3 * jitter_extent := by
  rw [EuclideanSpace.norm_eq, Fin.sum_univ_three]
  have b : ∀ i : Fin 3, ‖j i‖ ^ 2 ≤ 1 := by
    intro i
    have hi := h i
    rw [jitter_extent] at hi
    obtain ⟨hl, hu⟩ := abs_le.1 hi
    rw [Real.norm_eq_abs, sq_abs]
    nlinarith
  rw [jitter_extent, mul_one]
  apply Real.sqrt_le_sqrt
  have b0 := b 0
  have b1 := b 1
  have b2 := b 2
  linarith

theorem forwardAxis_lookAt (d : Fin 3 → ℝ) :
    forwardAxis (lookAtMatrix d) = normalize3 d := by
  funext i
  fin_cases i <;>
    simp [forwardAxis, lookAtMatrix, Matrix.mulVec, Matrix.dotProduct, Fin.sum_univ_three]

theorem cameraToWorld_left_inverse (R : Matrix (Fin 3) (Fin 3) ℝ) (t : Fin 3 → ℝ)
    (hR : R.transpose * R = 1) :
    (!![R 0 0, R 1 0, R 2 0, -(R 0 0 * t 0 + R 1 0 * t 1 + R 2 0 * t 2);
        R 0 1, R 1 1, R 2 1, -(R 0 1 * t 0 + R 1 1 * t 1 + R 2 1 * t 2);
        R 0 2, R 1 2, R 2 2, -(R 0 2 * t 0 + R 1 2 * t 1 + R 2 2 * t 2);
        0, 0, 0, 1] : Matrix (Fin 4) (Fin 4) ℝ) * cameraToWorld R t = 1 := by
  have h := Matrix.ext_iff.2 hR
  have h00 := h 0 0
  have h01 := h 0 1
  have h02 := h 0 2
  have h10 := h 1 0
  have h11 := h 1 1
  have h12 := h 1 2
  have h20 := h 2 0
  have h21 := h 2 1
  have h22 := h 2 2
  simp only [Matrix.mul_apply, Fin.sum_univ_three, Matrix.transpose_apply,
    Matrix.one_apply] at h00 h01 h02 h10 h11 h12 h20 h21 h22
  norm_num [Fin.ext_iff] at h00 h01 h02 h10 h11 h12 h20 h21 h22
  ext i j
  fin_cases i <;> fin_cases j <;>
    simp [cameraToWorld, Matrix.mul_apply, Fin.sum_univ_four, Matrix.one_apply]
  · linear_combination h00
  · linear_combination h01
  · linear_combination h02
  · ring
  · linear_combination h10
  · linear_combination h11
  · linear_combination h12
  · ring
  · linear_combination h20
  · linear_combination h21
  · linear_combination h22
  · ring

/-! ## Claims C1-C4: pose geometry and camera export -/

/-- **C1**: the pre-jitter camera location is `target + (r·cos θ·sin φ,
r·sin θ·sin φ, r·cos φ)` for draws `r ∈ [r_min, r_max]`, any `θ`, `φ`;
hence its distance to the target lies in `[r_min, r_max]`, and after
adding a jitter vector with components in `[-jitter_extent,
jitter_extent]` the distance lies in `[r_min − √3·jitter_extent,
r_max + √3·jitter_extent]`. -/
theorem C1_radial_distance_bounds (r θ φ : ℝ) (j : EuclideanSpace ℝ (Fin 3))
    (hr1 : r_min ≤ r) (hr2 : r ≤ r_max) (hj : ∀ i, |j i| ≤ jitter_extent) :
    preJitterLocation r θ φ = objLocation + sphericalOffset r θ φ ∧
    r_min ≤ dist (preJitterLocation r θ φ) objLocation ∧
    dist (preJitterLocation r θ φ) objLocation ≤ r_max ∧
    r_min - Real.sqrt 3 * jitter_extent ≤ dist (samplePose r θ φ j).location objLocation ∧
    dist (samplePose r θ φ j).location objLocation ≤ r_max + Real.sqrt 3 * jitter_extent := by
  have hr0 : (0 : ℝ) ≤ r := le_trans (by norm_num [r_min]) hr1
  have hpre : dist (preJitterLocation r θ φ) objLocation = r := by
    rw [objLocation, dist_zero_right, norm_preJitterLocation r θ φ hr0]
  have hjn : ‖j‖ ≤ Real.sqrt 3 * jitter_extent := norm_jitter_le j hj
  have hloc : (samplePose r θ φ j).location = preJitterLocation r θ φ + j := rfl
  have hpost : dist (samplePose r θ φ j).location objLocation = ‖preJitterLocation r θ φ + j‖ := by
    rw [hloc, objLocation, dist_zero_right]
  refine ⟨(zero_add _).symm, ?_, ?_, ?_, ?_⟩
  · rw [hpre]; exact hr1
  · rw [hpre]; exact hr2
  · rw [hpost]
    have htri : ‖preJitterLocation r θ φ‖ ≤ ‖preJitterLocation r θ φ + j‖ + ‖j‖ := by
      calc ‖preJitterLocation r θ φ‖ = ‖preJitterLocation r θ φ + j + -j‖ := by
            rw [add_neg_cancel_right]
        _ ≤ ‖preJitterLocation r θ φ + j‖ + ‖-j‖ := norm_add_le _ _
        _ = ‖preJitterLocation r θ φ + j‖ + ‖j‖ := by rw [norm_neg]
    rw [norm_preJitterLocation r θ φ hr0] at htri
    linarith
  · rw [hpost]
    have htri : ‖preJitterLocation r θ φ + j‖ ≤ ‖preJitterLocation r θ φ‖ + ‖j‖ :=
      norm_add_le _ _
    rw [norm_preJitterLocation r θ φ hr0] at htri
    linarith

/-- Witness for `C1_radial_distance_bounds` at `r = 5`, `θ = 0`, `φ = 0`,
zero jitter. -/
theorem C1_witness :
    (r_min ≤ (5 : ℝ) ∧ (5 : ℝ) ≤ r_max ∧
      (∀ i : Fin 3, |(0 : EuclideanSpace ℝ (Fin 3)) i| ≤ jitter_extent)) ∧
    (preJitterLocation 5 0 0 = objLocation + sphericalOffset 5 0 0 ∧
    r_min ≤ dist (preJitterLocation 5 0 0) objLocation ∧
    dist (preJitterLocation 5 0 0) objLocation ≤ r_max ∧
    r_min - Real.sqrt 3 * jitter_extent ≤
      dist (samplePose 5 0 0 0).location objLocation ∧
    dist (samplePose 5 0 0 0).location objLocation ≤ r_max + Real.sqrt 3 * jitter_extent) := by
  have hj : ∀ i : Fin 3, |(0 : EuclideanSpace ℝ (Fin 3)) i| ≤ jitter_extent := by
    intro i
    rw [show (0 : EuclideanSpace ℝ (Fin 3)) i = (0 : ℝ) from rfl]
    norm_num [jitter_extent]
  refine ⟨⟨by norm_num [r_min], by norm_num [r_max], hj⟩, ?_⟩
  exact C1_radial_distance_bounds 5 0 0 0 (by norm_num [r_min]) (by norm_num [r_max]) hj

/-- **C2**: the serialized view matrix is the exact inverse of the 4×4
camera-to-world matrix built from the job's pose (rotation block,
post-jitter translation column, bottom row `[0,0,0,1]`): for any
orthonormal rotation block `R` (as produced by the look-at quaternion) and
any translation `t`, the round-trip product is exactly the identity — in
particular within the floating tolerance `1e-6` entrywise. -/
theorem C2_view_matrix_inverse (R : Matrix (Fin 3) (Fin 3) ℝ) (t : Fin 3 → ℝ)
    (hR : R.transpose * R = 1) :
    transformation_matrix R t * cameraToWorld R t = 1 := by
  have hleft := cameraToWorld_left_inverse R t hR
  rw [transformation_matrix, Matrix.inv_eq_left_inv hleft]
  exact hleft

/-- Witness for `C2_view_matrix_inverse` at the identity rotation and
translation `(1, 2, 3)`. -/
theorem C2_witness :
    (1 : Matrix (Fin 3) (Fin 3) ℝ).transpose * 1 = 1 ∧
    transformation_matrix 1 ![1, 2, 3] * cameraToWorld 1 ![1, 2, 3] = 1 :=
  ⟨by simp, C2_view_matrix_inverse 1 ![1, 2, 3] (by simp)⟩

/-- **C3**: the sampled orientation's forward axis is exactly
`normalize(target − pre_jitter_location)`; the look-at construction is a
pure function of that direction (deterministic, no hidden state), and the
jitter is added only after the orientation is computed, so poses sampled
from the same `(r, θ, φ)` draws but different jitter draws carry the same
orientation — the camera is never re-aimed at the target post-jitter. -/
theorem C3_forward_axis_prejitter :
    ∀ (r θ φ : ℝ) (j j2 : EuclideanSpace ℝ (Fin 3)),
      forwardAxis (samplePose r θ φ j).orientation =
        normalize3 (fun i => objLocation i - preJitterLocation r θ φ i) ∧
      (samplePose r θ φ j2).orientation = (samplePose r θ φ j).orientation :=
  fun r θ φ j j2 => ⟨forwardAxis_lookAt _, rfl⟩

/-- **C4**: the exported projection matrix is the renderer-native one with
the `[1,1]` entry's sign flipped and every other entry unchanged. -/
theorem C4_projection_sign_flip :
    ∀ P : Matrix (Fin 4) (Fin 4) ℝ,
      exportProjection P 1 1 = -(P 1 1) ∧
      ∀ i j : Fin 4, ¬(i = 1 ∧ j = 1) → exportProjection P i j = P i j := by
  intro P
  constructor
  · simp [exportProjection]
  · intro i j h
    simp [exportProjection, h]

/-- Witness for `C4_projection_sign_flip` at the identity matrix and the
entry `(0, 0)`. -/
theorem C4_witness :
    ¬((0 : Fin 4) = 1 ∧ (0 : Fin 4) = 1) ∧
    exportProjection (1 : Matrix (Fin 4) (Fin 4) ℝ) 0 0 =
      (1 : Matrix (Fin 4) (Fin 4) ℝ) 0 0 :=
  ⟨by decide, (C4_projection_sign_flip 1).2 0 0 (by decide)⟩

end RenderPy
